import Mathlib

/-!
Verification development for the evor8pe batch transaction execution engine.

The definitions below are a shallow embedding of the TypeScript sources
`src/lib/solana.ts` and `src/App.tsx`:

* pure helpers (`toRawAmount`, `buildTransferTx`, `applyBlockhash`,
  concurrency clamping) become Lean functions;
* `fetch`-based network effects are passed in as explicit oracles
  (one response per call site and call index), and a thrown JS exception
  is modelled as `Except.error`;
* JavaScript string primitives (`trim`, `toLowerCase`, `split('.')`,
  `slice`, regular-expression tests used by the code) are modelled as
  executable functions over `List Char`;
* JavaScript `bigint` amounts are modelled as `Nat` (the code only ever
  builds non-negative amounts from digit strings);
* the `sendWithRetry` loop additionally records an event trace (network
  sends, blockhash refreshes, backoff waits) so that scheduling-visible
  behaviour of one signer run can be stated.
-/

namespace Evor

/-! ## JavaScript string primitives, modelled over `List Char` -/

/-- Model of `String.prototype.trim`: remove leading and trailing whitespace. -/
def jsTrim (s : String) : String :=
  String.mk (((s.data.dropWhile Char.isWhitespace).reverse.dropWhile Char.isWhitespace).reverse)

/-- Model of `String.prototype.toLowerCase` for the ASCII messages the code matches on. -/
def jsToLower (s : String) : String := String.mk (s.data.map Char.toLower)

/-- Model of `s.split('.')`: split on every occurrence of the dot character. -/
def jsSplitDot (s : String) : List String := (s.data.splitOn '.').map String.mk

/-- Model of `s.slice(0, n)`: the first `n` characters of `s`. -/
def strSlice (s : String) (n : Nat) : String := String.mk (s.data.take n)

/-- Model of `'0'.repeat(n)`. -/
def zeroRepeat (n : Nat) : String := String.mk (List.replicate n '0')

/-- Does the character list start with the given pattern? -/
def startsWithSeq : List Char → List Char → Bool
  | _, [] => true
  | [], _ :: _ => false
  | c :: cs, p :: ps => c = p && startsWithSeq cs ps

/-- Does the character list contain the given pattern as a contiguous subsequence? -/
def containsSeq : List Char → List Char → Bool
  | [], pat => pat.isEmpty
  | c :: rest, pat => startsWithSeq (c :: rest) pat || containsSeq rest pat

/-- Model of the regular-expression test `/^\d*$/.test(s)` (and, for a string
that is known to be nonempty, of `/^\d+$/.test(s)`): every character is an
ASCII digit. -/
def isDigitStr (s : String) : Bool := s.data.all Char.isDigit

/-- Value of an ASCII digit character. -/
def digitVal (c : Char) : Nat := c.toNat - 48

/-- Value of a digit-character list read in base 10, as computed by
JavaScript `BigInt` on an all-digit string. -/
def digitsVal (l : List Char) : Nat := l.foldl (fun acc c => acc * 10 + digitVal c) 0

/-- Model of `BigInt(s)` for an all-digit string `s`. -/
def strVal (s : String) : Nat := digitsVal s.data

/-! ## Amount Normalizer (`toRawAmount` in `src/App.tsx`, lines 20-32) -/

/-- Model of `(frac + '0'.repeat(decimals)).slice(0, decimals)`: the fractional
digits right-padded with zeros and truncated to exactly `decimals` characters. -/
def padFrac (frac : String) (decimals : Nat) : String :=
  String.mk ((frac.data ++ List.replicate decimals '0').take decimals)

/-- Shallow embedding of `toRawAmount(amount, decimals)` from `src/App.tsx`.
A thrown `Error(msg)` is modelled as `Except.error msg`.  JavaScript
destructuring `const [whole, frac = ''] = normalized.split('.')` keeps only
the first two segments of the split, which is modelled with
`headD` / `drop 1` on the split result. -/
def toRawAmount (amount : String) (decimals : Nat) : Except String Nat :=
  let normalized := jsTrim amount
  if normalized = "" then Except.error "Amount is required"
  else
    let parts := jsSplitDot normalized
    let whole := parts.headD ""
    let frac := (parts.drop 1).headD ""
    let safeWhole := if whole = "" then "0" else whole
    if !(isDigitStr safeWhole) || !(isDigitStr frac) then
      Except.error "Amount must be numeric"
    else
      let padded := padFrac frac decimals
      Except.ok (strVal safeWhole * 10 ^ decimals +
        strVal (if padded = "" then "0" else padded))

/-! ## Balance fetch (`fetchBalances` in `src/lib/solana.ts`, lines 26-43) -/

/-- Response of the relay's `/balances` endpoint: either a non-2xx HTTP status
or a balance mapping. -/
inductive BalancesResponse where
  | httpError (status : Nat)
  | success (balances : List (String × Nat))

/-- Model of `PublicKey.toBase58()`: an injective rendering of the modelled key. -/
def pubkeyBase58 (p : Nat) : String := toString p

/-- Shallow embedding of `fetchBalances(pubkeys, apiBase, apiKey)` from
`src/lib/solana.ts`.  The network is an explicit oracle receiving exactly the
request data the code sends; the second component of the result counts how
many network calls were performed. -/
def fetchBalances (net : String → Option String → List String → BalancesResponse)
    (pubkeys : List Nat) (apiBase : String) (apiKey : Option String) :
    Except String (List (String × Nat)) × Nat :=
  if pubkeys.length = 0 then (Except.ok [], 0)
  else
    match net apiBase apiKey (pubkeys.map pubkeyBase58) with
    | BalancesResponse.httpError status =>
        (Except.error ("Balance fetch failed: " ++ toString status), 1)
    | BalancesResponse.success balances => (Except.ok balances, 1)

/-! ## Data model of `src/lib/solana.ts` -/

/-- Model of a `@solana/web3.js` `Keypair`.  Only the public key is needed: the
secret key enters the model through the deterministic `Transaction.sign` below. -/
structure Keypair where
  publicKey : Nat
deriving DecidableEq

/-- `WalletRef` from `src/lib/solana.ts`: a named signing keypair. -/
structure WalletRef where
  name : String
  keypair : Keypair
deriving DecidableEq

/-- `TransferPlan` from `src/lib/solana.ts`.  Addresses are modelled as `Nat`
and the `bigint` amount as `Nat`. -/
structure TransferPlan where
  mint : Nat
  destination : Nat
  amountRaw : Nat
  priorityFeeMicrolamports : Option Nat := none
deriving DecidableEq

/-- `WalletSendResult` from `src/lib/solana.ts`: the per-signer outcome. -/
structure WalletSendResult where
  wallet : String
  signature : Option String := none
  error : Option String := none
deriving DecidableEq

/-- `BlockhashInfo` from `src/lib/solana.ts` (the spec calls it
`ReferenceHashInfo`). -/
structure BlockhashInfo where
  blockhash : String
  lastValidBlockHeight : Nat
deriving DecidableEq

/-- The four instruction kinds `buildTransferTx` assembles. -/
inductive Instruction where
  | setComputeUnitPrice (microLamports : Nat)
  | setComputeUnitLimit (units : Nat)
  | createAssociatedTokenAccountIdempotent (payer ata owner mint : Nat)
  | transfer (source destination owner : Nat) (amount : Nat)
deriving DecidableEq

/-- Model of `getAssociatedTokenAddress(mint, owner)`: a deterministic
derivation of the token sub-account from mint and owner. -/
def getAssociatedTokenAddress (mint owner : Nat) : Nat := Nat.pair mint owner

/-- The signed portion of a transaction (everything `tx.sign` commits to). -/
structure TxMessage where
  instructions : List Instruction
  feePayer : Option Nat
  recentBlockhash : Option String
deriving DecidableEq

/-- Model of a `@solana/web3.js` `Transaction`.  A signature is modelled as the
pair of the signing key and the exact message signed, which makes signing
deterministic and injective. -/
structure Transaction where
  instructions : List Instruction := []
  feePayer : Option Nat := none
  recentBlockhash : Option String := none
  lastValidBlockHeight : Option Nat := none
  signatures : List (Nat × TxMessage) := []
deriving DecidableEq

/-- The message a signature commits to. -/
def Transaction.message (tx : Transaction) : TxMessage :=
  { instructions := tx.instructions
    feePayer := tx.feePayer
    recentBlockhash := tx.recentBlockhash }

/-- Model of `tx.sign(signer)`: replaces any previous signatures with the
signer's signature over the current message. -/
def Transaction.sign (tx : Transaction) (signer : Keypair) : Transaction :=
  { tx with signatures := [(signer.publicKey, tx.message)] }

/-- `applyBlockhash(tx, signer, info)` from `src/lib/solana.ts`, lines 103-107:
set `recentBlockhash` and `lastValidBlockHeight` on the transaction and re-sign
it.  The source mutates `tx` in place; the model returns the updated value. -/
def applyBlockhash (tx : Transaction) (signer : Keypair) (info : BlockhashInfo) : Transaction :=
  Transaction.sign
    { tx with
        recentBlockhash := some info.blockhash
        lastValidBlockHeight := some info.lastValidBlockHeight }
    signer

/-- `buildTransferTx(from, plan, blockhashInfo)` from `src/lib/solana.ts`,
lines 109-144, following the source statement by statement: derive both token
sub-accounts, build the create-idempotent and transfer instructions, add the
optional priority-fee instruction, add the compute-unit ceiling and the two
instructions, set the fee payer, and bind and sign the blockhash. -/
def buildTransferTx (sender : Keypair) (plan : TransferPlan)
    (blockhashInfo : BlockhashInfo) : Transaction :=
  let fromAta := getAssociatedTokenAddress plan.mint sender.publicKey
  let toAta := getAssociatedTokenAddress plan.mint plan.destination
  let ixs : List Instruction :=
    [Instruction.createAssociatedTokenAccountIdempotent
        sender.publicKey toAta plan.destination plan.mint,
      Instruction.transfer fromAta toAta sender.publicKey plan.amountRaw]
  let tx0 : Transaction := {}
  let tx1 :=
    match plan.priorityFeeMicrolamports with
    | some p =>
        if p > 0 then
          { tx0 with instructions := tx0.instructions ++ [Instruction.setComputeUnitPrice p] }
        else tx0
    | none => tx0
  let tx2 := { tx1 with
    instructions := tx1.instructions ++ Instruction.setComputeUnitLimit 200000 :: ixs }
  let tx3 := { tx2 with feePayer := some sender.publicKey }
  applyBlockhash tx3 sender blockhashInfo

/-! ## Submission with retry (`sendWithRetry` in `src/lib/solana.ts`, lines 146-191) -/

/-- Observable outcome of one `fetch(apiBase + "/sendRaw")` attempt.  A 2xx
response carrying a signature is `accepted`; a non-2xx response (whose message
is `body.error` or the synthesized status text) and a thrown network error both
surface in the `catch` block as a message, modelled uniformly as `failed`. -/
inductive SendResponse where
  | accepted (signature : String)
  | failed (msg : String)
deriving DecidableEq

/-- Model of the staleness test
`/BlockhashNotFound|blockhash|expired/i.test(msg)`: case-insensitive substring
match of any of the three alternatives. -/
def needsHashMsg (msg : String) : Bool :=
  let l := (jsToLower msg).data
  containsSeq l "blockhashnotfound".data ||
    containsSeq l "blockhash".data ||
    containsSeq l "expired".data

/-- Externally visible events of one signer run, in order: a `sendRaw` POST of
a concrete transaction, a blockhash refresh (with its result), or a backoff
wait of the given number of milliseconds. -/
inductive SendEvent where
  | sent (tx : Transaction)
  | refreshed (result : Except String BlockhashInfo)
  | waited (ms : Nat)

/-- The body of the `for` loop of `sendWithRetry`, one constructor case per
remaining-retry count: `remaining` is `maxRetries - attempt`, so `remaining = 0`
is exactly the `attempt === maxRetries` case of the source.  Per iteration:
send the transaction (`send attempt` is the relay's response to this run's
attempt number `attempt`); on success return the signature outcome; on failure
classify the message, on staleness call `getBlockhash` (the `nRefresh`-th call
of this run, whose thrown failure escapes as `Except.error`) and rebind the
transaction with `applyBlockhash`; then either return the failure outcome (last
attempt) or wait `150 * attempt` milliseconds and loop. -/
def sendLoop (send : Nat → SendResponse) (refresh : Nat → Except String BlockhashInfo)
    (walletName : String) (signer : Keypair) :
    Nat → Nat → Nat → Transaction → Except String WalletSendResult × List SendEvent
  | 0, attempt, nRefresh, tx =>
    match send attempt with
    | SendResponse.accepted sig =>
        (Except.ok { wallet := walletName, signature := some sig }, [SendEvent.sent tx])
    | SendResponse.failed msg =>
        if needsHashMsg msg then
          match refresh nRefresh with
          | Except.error e =>
              (Except.error e, [SendEvent.sent tx, SendEvent.refreshed (Except.error e)])
          | Except.ok fresh =>
              (Except.ok { wallet := walletName, error := some msg },
                [SendEvent.sent tx, SendEvent.refreshed (Except.ok fresh)])
        else
          (Except.ok { wallet := walletName, error := some msg }, [SendEvent.sent tx])
  | Nat.succ r, attempt, nRefresh, tx =>
    match send attempt with
    | SendResponse.accepted sig =>
        (Except.ok { wallet := walletName, signature := some sig }, [SendEvent.sent tx])
    | SendResponse.failed msg =>
        if needsHashMsg msg then
          match refresh nRefresh with
          | Except.error e =>
              (Except.error e, [SendEvent.sent tx, SendEvent.refreshed (Except.error e)])
          | Except.ok fresh =>
              let rest := sendLoop send refresh walletName signer r (attempt + 1) (nRefresh + 1)
                (applyBlockhash tx signer fresh)
              (rest.1,
                SendEvent.sent tx :: SendEvent.refreshed (Except.ok fresh) ::
                  SendEvent.waited (150 * attempt) :: rest.2)
        else
          let rest := sendLoop send refresh walletName signer r (attempt + 1) nRefresh tx
          (rest.1, SendEvent.sent tx :: SendEvent.waited (150 * attempt) :: rest.2)

/-- `sendWithRetry` with its event trace.  `maxRetries = 0` never enters the
loop and falls through to the `'exhausted retries'` backstop of the source;
otherwise the loop starts at `attempt = 1` with `maxRetries - 1` retries left. -/
def sendWithRetryTraced (send : Nat → SendResponse)
    (refresh : Nat → Except String BlockhashInfo) (tx : Transaction)
    (walletName : String) (signer : Keypair) (maxRetries : Nat) :
    Except String WalletSendResult × List SendEvent :=
  match maxRetries with
  | 0 => (Except.ok { wallet := walletName, error := some "exhausted retries" }, [])
  | Nat.succ r => sendLoop send refresh walletName signer r 1 0 tx

/-- Shallow embedding of `sendWithRetry` from `src/lib/solana.ts`: the value
the returned promise settles with (`Except.error` when an exception escapes the
function, which happens exactly when `getBlockhash()` throws inside the catch
block). -/
def sendWithRetry (send : Nat → SendResponse)
    (refresh : Nat → Except String BlockhashInfo) (tx : Transaction)
    (walletName : String) (signer : Keypair) (maxRetries : Nat) :
    Except String WalletSendResult :=
  (sendWithRetryTraced send refresh tx walletName signer maxRetries).1

/-- Default of the `maxRetries = 3` parameter of `sendWithRetry`. -/
def defaultMaxRetries : Nat := 3

/-! ## Batch dispatcher (`executeBatch` in `src/lib/solana.ts`, lines 193-227) -/

/-- `MAX_WALLETS` from `src/App.tsx`. -/
def MAX_WALLETS : Int := 30

/-- The limit `executeBatch` hands to `pLimit`: `Math.max(1, concurrency)`. -/
def batchLimit (concurrency : Int) : Int := max 1 concurrency

/-- The concurrency value `handleExecute` in `src/App.tsx` supplies to
`executeBatch`: `Math.min(MAX_WALLETS, Math.max(1, concurrency || 1))`, where
`concurrency || 1` maps the falsy `0` to `1`. -/
def safeConcurrency (concurrency : Int) : Int :=
  min MAX_WALLETS (max 1 (if concurrency = 0 then 1 else concurrency))

/-- Network environment of one batch: the result of the initial blockhash
fetch, and, per signer name, the relay's `sendRaw` answer for each attempt
number and the result of each later `getBlockhash` call made on behalf of that
signer's run (abstracting the shared cache under an arbitrary interleaving). -/
structure BatchOracle where
  initialBlockhash : Except String BlockhashInfo
  send : String → Nat → SendResponse
  refresh : String → Nat → Except String BlockhashInfo

/-- Model of `Promise.all`: the combined promise resolves with all values when
every task resolves, and rejects when some task rejects. -/
def promiseAll {α : Type} : List (Except String α) → Except String (List α)
  | [] => Except.ok []
  | Except.error e :: _ => Except.error e
  | Except.ok a :: rest =>
    match promiseAll rest with
    | Except.error e => Except.error e
    | Except.ok as_ => Except.ok (a :: as_)

/-- One signer task of `executeBatch`: build the transaction from the cached
blockhash, then run `sendWithRetry` with the default retry bound. -/
def runWallet (plan : TransferPlan) (bh0 : BlockhashInfo)
    (send : Nat → SendResponse) (refresh : Nat → Except String BlockhashInfo)
    (w : WalletRef) : Except String WalletSendResult :=
  sendWithRetry send refresh (buildTransferTx w.keypair plan bh0)
    w.name w.keypair defaultMaxRetries

/-- Shallow embedding of `executeBatch` from `src/lib/solana.ts`: fetch the
initial blockhash (a failure rejects the whole batch), then run one task per
wallet under the `pLimit` pool and `Promise.all` the tasks.  The pool size only
schedules tasks, every task runs to completion independently, so the settled
values are those of the per-wallet runs in input order. -/
def executeBatch (wallets : List WalletRef) (plan : TransferPlan)
    (concurrency : Int) (oracle : BatchOracle) :
    Except String (List WalletSendResult) :=
  match oracle.initialBlockhash with
  | Except.error e => Except.error e
  | Except.ok bh0 =>
    let _limit := batchLimit concurrency
    promiseAll (wallets.map fun w =>
      runWallet plan bh0 (oracle.send w.name) (oracle.refresh w.name) w)

/-- The backoff waits of an event trace, in order. -/
def waitsOf : List SendEvent → List Nat
  | [] => []
  | SendEvent.waited ms :: rest => ms :: waitsOf rest
  | _ :: rest => waitsOf rest

/-! ## Helper lemmas about digit-string values -/

theorem digitVal_zero_char : digitVal '0' = 0 := rfl

theorem digitsVal_foldl (b : List Char) (acc : Nat) :
    List.foldl (fun acc c => acc * 10 + digitVal c) acc b =
      acc * 10 ^ b.length + digitsVal b := by
  induction b generalizing acc with
  | nil => simp [digitsVal]
  | cons c b ih =>
    simp only [List.foldl_cons, List.length_cons, digitsVal] at *
    rw [ih, ih (0 * 10 + digitVal c)]
    ring

theorem digitsVal_append (a b : List Char) :
    digitsVal (a ++ b) = digitsVal a * 10 ^ b.length + digitsVal b := by
  simp only [digitsVal, List.foldl_append]
  exact digitsVal_foldl b (List.foldl (fun acc c => acc * 10 + digitVal c) 0 a)

theorem digitsVal_replicate_zero (n : Nat) : digitsVal (List.replicate n '0') = 0 := by
  induction n with
  | zero => rfl
  | succ n ih =>
    simp only [digitsVal, List.replicate_succ, List.foldl_cons] at *
    simpa [digitVal_zero_char] using ih

/-- Value of the padded-and-truncated fractional string, as the code consumes
it: truncating the fraction to the first `d` digits and scaling by the number
of padding zeros. -/
theorem strVal_padFrac (f : String) (d : Nat) :
    strVal (if padFrac f d = "" then "0" else padFrac f d) =
      strVal (strSlice f d) * 10 ^ (d - f.length) := by
  have hnil : digitsVal ([] : List Char) = 0 := rfl
  have hzero : digitsVal ['0'] = 0 := rfl
  cases d with
  | zero =>
    have hp : padFrac f 0 = "" := by
      simp [padFrac]
    rw [hp, if_pos rfl]
    show digitsVal "0".data = digitsVal (f.data.take 0) * 10 ^ (0 - f.length)
    simp [hnil, hzero]
  | succ k =>
    have hne : padFrac f (k + 1) ≠ "" := by
      intro h
      have hdata : (f.data ++ List.replicate (k + 1) '0').take (k + 1) = [] :=
        congrArg String.data h
      rcases List.take_eq_nil_iff.mp hdata with h0 | h0
      · exact Nat.succ_ne_zero k h0
      · rcases List.append_eq_nil.mp h0 with ⟨-, hrep⟩
        rw [List.replicate_succ] at hrep
        exact List.cons_ne_nil _ _ hrep
    rw [if_neg hne]
    show digitsVal ((f.data ++ List.replicate (k + 1) '0').take (k + 1)) =
      digitsVal (f.data.take (k + 1)) * 10 ^ (k + 1 - f.data.length)
    by_cases hlen : k + 1 ≤ f.data.length
    · have htake : (f.data ++ List.replicate (k + 1) '0').take (k + 1) =
          f.data.take (k + 1) := List.take_append_of_le_length hlen
      have hsub : k + 1 - f.data.length = 0 := Nat.sub_eq_zero_of_le hlen
      rw [htake, hsub, pow_zero, Nat.mul_one]
    · push_neg at hlen
      have hfle : f.data.length ≤ k + 1 := Nat.le_of_lt hlen
      have htake : (f.data ++ List.replicate (k + 1) '0').take (k + 1) =
          f.data ++ List.replicate (k + 1 - f.data.length) '0' := by
        rw [List.take_append_eq_append_take, List.take_of_length_le hfle,
          List.take_replicate]
        rw [min_eq_left (Nat.sub_le _ _)]
      have hslice : f.data.take (k + 1) = f.data := List.take_of_length_le hfle
      rw [htake, hslice, digitsVal_append, digitsVal_replicate_zero,
        List.length_replicate, Nat.add_zero]

/-- Unfolded form of `toRawAmount` (pure zeta reduction of its `let` chain). -/
theorem toRawAmount_eq (amount : String) (decimals : Nat) :
    toRawAmount amount decimals =
      (if jsTrim amount = "" then Except.error "Amount is required"
       else
         if !(isDigitStr (if (jsSplitDot (jsTrim amount)).headD "" = "" then "0"
               else (jsSplitDot (jsTrim amount)).headD "")) ||
             !(isDigitStr (((jsSplitDot (jsTrim amount)).drop 1).headD "")) then
           Except.error "Amount must be numeric"
         else
           Except.ok (strVal (if (jsSplitDot (jsTrim amount)).headD "" = "" then "0"
               else (jsSplitDot (jsTrim amount)).headD "") * 10 ^ decimals +
             strVal
               (if padFrac (((jsSplitDot (jsTrim amount)).drop 1).headD "") decimals = ""
                then "0"
                else padFrac (((jsSplitDot (jsTrim amount)).drop 1).headD "") decimals))) :=
  rfl

/-- C3: the amount normalizer satisfies `normalize("1.25", 6) = 1250000` and
`normalize("5", 0) = 5`, fails on `""` and on `"1.2x"`, and for every valid
decimal string (trimmed, nonempty, integer part `w` and fractional part `f`
made of digits) and decimal count `d` it returns exactly
`w * 10 ^ d + (first d digits of f) * 10 ^ (number of padding zeros)`:
the fraction is right-padded with zeros to `d` digits and truncated, never
rounded, and the result is the exact integer `intPart * 10 ^ d + paddedFrac`. -/
theorem toRawAmount_spec :
    toRawAmount "1.25" 6 = Except.ok 1250000 ∧
    toRawAmount "5" 0 = Except.ok 5 ∧
    toRawAmount "" 6 = Except.error "Amount is required" ∧
    toRawAmount "1.2x" 2 = Except.error "Amount must be numeric" ∧
    ∀ (s w f : String) (d : Nat),
      jsTrim s = s → s ≠ "" →
      (jsSplitDot s).headD "" = w →
      ((jsSplitDot s).drop 1).headD "" = f →
      isDigitStr w = true → isDigitStr f = true →
      toRawAmount s d =
        Except.ok (strVal w * 10 ^ d + strVal (strSlice f d) * 10 ^ (d - f.length)) := by
  refine ⟨rfl, rfl, rfl, rfl, ?_⟩
  intro s w f d hs hne hw hf hdw hdf
  have hsafe : isDigitStr (if w = "" then "0" else w) = true := by
    by_cases hww : w = ""
    · rw [if_pos hww]; decide
    · rwa [if_neg hww]
  have hval : strVal (if w = "" then "0" else w) = strVal w := by
    by_cases hww : w = ""
    · subst hww; rfl
    · rw [if_neg hww]
  rw [toRawAmount_eq, hs, if_neg hne, hw, hf, hsafe, hdf, hval, strVal_padFrac]
  simp

/-- Witness for C3: the general clause evaluated at `"12.345"` with 2 decimals,
where the fraction is truncated to `"34"` and the result is 1234. -/
theorem toRawAmount_spec_witness :
    toRawAmount "12.345" 2 =
      Except.ok (strVal "12" * 10 ^ 2 + strVal (strSlice "345" 2) * 10 ^ (2 - "345".length)) :=
  toRawAmount_spec.2.2.2.2 "12.345" "12" "345" 2 (by decide) (by decide) (by decide)
    (by decide) (by decide) (by decide)

/-- C4 counterexample: `"1.2.3"` contains more than one decimal point, yet the
normalizer accepts it instead of failing — the JavaScript destructuring
`const [whole, frac = ''] = normalized.split('.')` silently drops every
segment after the second, so the input is read as `1.2` and normalized to
`1 * 10 ^ 2 + 20 = 120`. -/
theorem toRawAmount_accepts_second_dot : toRawAmount "1.2.3" 2 = Except.ok 120 := rfl

/-- C4 (amended): the normalizer fails exactly when the trimmed input is
empty, when the segment before the first decimal point is nonempty and
contains a non-digit, or when the segment between the first and the second
decimal points contains a non-digit; any characters after a second decimal
point are ignored rather than rejected. -/
theorem toRawAmount_error_characterization :
    ∀ (s : String) (d : Nat),
      (∃ e, toRawAmount s d = Except.error e) ↔
        (jsTrim s = "" ∨
          ((jsSplitDot (jsTrim s)).headD "" ≠ "" ∧
              isDigitStr ((jsSplitDot (jsTrim s)).headD "") = false) ∨
            isDigitStr (((jsSplitDot (jsTrim s)).drop 1).headD "") = false) := by
  intro s d
  rw [toRawAmount_eq]
  generalize ((jsSplitDot (jsTrim s)).drop 1).headD "" = b
  generalize ha : (jsSplitDot (jsTrim s)).headD "" = a
  by_cases h0 : jsTrim s = ""
  · simp [h0]
  · rw [if_neg h0]
    by_cases haa : a = ""
    · subst haa
      by_cases hb : isDigitStr b = true
      · simp [h0, hb, (by decide : isDigitStr "0" = true)]
      · simp only [Bool.not_eq_true] at hb
        simp [h0, hb, (by decide : isDigitStr "0" = true)]
    · rw [if_neg haa]
      by_cases hda : isDigitStr a = true
      · by_cases hb : isDigitStr b = true
        · simp [h0, haa, hda, hb]
        · simp only [Bool.not_eq_true] at hb
          simp [h0, haa, hda, hb]
      · simp only [Bool.not_eq_true] at hda
        simp [h0, haa, hda]

/-- C10: `fetchBalances` on an empty address list returns an empty balance
mapping without performing any network call, for every relay base URL, api
key, and network behaviour (the call counter is 0 and the result does not
depend on the network oracle at all). -/
theorem fetchBalances_empty_no_network :
    ∀ (net net' : String → Option String → List String → BalancesResponse)
      (apiBase apiBase' : String) (apiKey apiKey' : Option String),
      fetchBalances net [] apiBase apiKey = (Except.ok [], 0) ∧
      fetchBalances net [] apiBase apiKey = fetchBalances net' [] apiBase' apiKey' := by
  intro net net' apiBase apiBase' apiKey apiKey'
  exact ⟨rfl, rfl⟩

/-! ## Lemmas about one signer run -/

/-- Any successfully settled outcome of the retry loop carries the run's
wallet name and has exactly one of signature/error set; a signature is always
one the relay returned on some attempt. -/
theorem sendLoop_ok (send : Nat → SendResponse) (refresh : Nat → Except String BlockhashInfo)
    (walletName : String) (signer : Keypair) :
    ∀ (remaining attempt nRefresh : Nat) (tx : Transaction) (r : WalletSendResult),
      (sendLoop send refresh walletName signer remaining attempt nRefresh tx).1 = Except.ok r →
      r.wallet = walletName ∧
      ((∃ sig, r.signature = some sig ∧ r.error = none ∧
          ∃ a, send a = SendResponse.accepted sig) ∨
        (r.signature = none ∧ ∃ e, r.error = some e)) := by
  intro remaining
  induction remaining with
  | zero =>
    intro attempt nRefresh tx r h
    simp only [sendLoop] at h
    rcases hs : send attempt with sig | msg <;> rw [hs] at h <;> dsimp only at h
    · simp only [Except.ok.injEq] at h
      subst h
      exact ⟨rfl, Or.inl ⟨sig, rfl, rfl, attempt, hs⟩⟩
    · by_cases hn : needsHashMsg msg
      · rw [if_pos hn] at h
        rcases hr : refresh nRefresh with e | fresh <;> rw [hr] at h <;> dsimp only at h
        · simp at h
        · simp only [Except.ok.injEq] at h
          subst h
          exact ⟨rfl, Or.inr ⟨rfl, msg, rfl⟩⟩
      · rw [if_neg hn] at h
        dsimp only at h
        simp only [Except.ok.injEq] at h
        subst h
        exact ⟨rfl, Or.inr ⟨rfl, msg, rfl⟩⟩
  | succ k ih =>
    intro attempt nRefresh tx r h
    simp only [sendLoop] at h
    rcases hs : send attempt with sig | msg <;> rw [hs] at h <;> dsimp only at h
    · simp only [Except.ok.injEq] at h
      subst h
      exact ⟨rfl, Or.inl ⟨sig, rfl, rfl, attempt, hs⟩⟩
    · by_cases hn : needsHashMsg msg
      · rw [if_pos hn] at h
        rcases hr : refresh nRefresh with e | fresh <;> rw [hr] at h <;> dsimp only at h
        · simp at h
        · exact ih (attempt + 1) (nRefresh + 1) _ r h
      · rw [if_neg hn] at h
        dsimp only at h
        exact ih (attempt + 1) nRefresh tx r h

/-- C5: every `WalletSendResult` a signer run resolves with has exactly one of
the signature and error fields set — the signature case carries a signature
the relay actually returned on some attempt (the transaction was accepted),
the error case is a terminally failed run with its message set — and never
both or neither. -/
theorem sendWithRetry_outcome_exclusive :
    ∀ (send : Nat → SendResponse) (refresh : Nat → Except String BlockhashInfo)
      (tx : Transaction) (walletName : String) (signer : Keypair)
      (maxRetries : Nat) (r : WalletSendResult),
      sendWithRetry send refresh tx walletName signer maxRetries = Except.ok r →
      r.wallet = walletName ∧
      ((∃ sig, r.signature = some sig ∧ r.error = none ∧
          ∃ a, send a = SendResponse.accepted sig) ∨
        (r.signature = none ∧ ∃ e, r.error = some e)) := by
  intro send refresh tx walletName signer maxRetries r h
  cases maxRetries with
  | zero =>
    simp only [sendWithRetry, sendWithRetryTraced, Except.ok.injEq] at h
    subst h
    exact ⟨rfl, Or.inr ⟨rfl, "exhausted retries", rfl⟩⟩
  | succ k => exact sendLoop_ok send refresh walletName signer k 1 0 tx r h

/-- Witness for C5: a run whose first attempt is accepted resolves with the
signature set, the error unset, and the relay-returned signature. -/
theorem sendWithRetry_outcome_exclusive_witness :
    ({ wallet := "w1", signature := some "SIG" } : WalletSendResult).wallet = "w1" ∧
    ((∃ sig, ({ wallet := "w1", signature := some "SIG" } : WalletSendResult).signature
            = some sig ∧
        ({ wallet := "w1", signature := some "SIG" } : WalletSendResult).error = none ∧
        ∃ _ : Nat, SendResponse.accepted "SIG" = SendResponse.accepted sig) ∨
      (({ wallet := "w1", signature := some "SIG" } : WalletSendResult).signature = none ∧
        ∃ e, ({ wallet := "w1", signature := some "SIG" } : WalletSendResult).error
            = some e)) :=
  sendWithRetry_outcome_exclusive (fun _ => SendResponse.accepted "SIG")
    (fun _ => Except.error "down") {} "w1" ⟨7⟩ 3
    { wallet := "w1", signature := some "SIG" } rfl

/-- C9: for every signer, plan and reference hash, the built transaction
contains, in order, an optional priority-fee instruction present exactly when
the priority-fee rate is positive, the fixed 200000 compute-unit ceiling, the
idempotent create-destination-token-account instruction, and a transfer of
exactly `amountRaw` from the signer's token sub-account to the destination's
token sub-account, with the signer as fee payer. -/
theorem buildTransferTx_assembly :
    ∀ (sender : Keypair) (plan : TransferPlan) (bh : BlockhashInfo),
      (buildTransferTx sender plan bh).instructions =
        (match plan.priorityFeeMicrolamports with
          | some p => if p > 0 then [Instruction.setComputeUnitPrice p] else []
          | none => []) ++
          [Instruction.setComputeUnitLimit 200000,
            Instruction.createAssociatedTokenAccountIdempotent sender.publicKey
              (getAssociatedTokenAddress plan.mint plan.destination)
              plan.destination plan.mint,
            Instruction.transfer (getAssociatedTokenAddress plan.mint sender.publicKey)
              (getAssociatedTokenAddress plan.mint plan.destination)
              sender.publicKey plan.amountRaw] ∧
      (buildTransferTx sender plan bh).feePayer = some sender.publicKey ∧
      ((∃ p, Instruction.setComputeUnitPrice p ∈ (buildTransferTx sender plan bh).instructions)
        ↔ ∃ p, plan.priorityFeeMicrolamports = some p ∧ 0 < p) := by
  intro sender plan bh
  rcases plan with ⟨mint, dest, amt, pf⟩
  rcases pf with _ | p
  · refine ⟨rfl, rfl, ?_⟩
    simp [buildTransferTx, applyBlockhash, Transaction.sign]
  · by_cases hp : p > 0
    · refine ⟨?_, rfl, ?_⟩
      · simp [buildTransferTx, applyBlockhash, Transaction.sign, hp]
      · simp only [buildTransferTx, applyBlockhash, Transaction.sign, if_pos hp]
        constructor
        · intro _
          exact ⟨p, rfl, hp⟩
        · intro _
          exact ⟨p, by simp⟩
    · refine ⟨?_, rfl, ?_⟩
      · simp [buildTransferTx, applyBlockhash, Transaction.sign, hp]
      · simp only [buildTransferTx, applyBlockhash, Transaction.sign, if_neg hp]
        constructor
        · intro hmem
          rcases hmem with ⟨q, hq⟩
          simp at hq
        · intro hmem
          rcases hmem with ⟨q, hq, hq0⟩
          simp only [Option.some.injEq] at hq
          subst hq
          exact absurd hq0 hp

/-- C6: for every batch execution started from the dashboard, the concurrency
limit supplied to `executeBatch` is `safeConcurrency`, which clamps to
`[1, 30]` — values below 1 are raised to 1, values above 30 lowered to 30 —
and the dispatcher's own `Math.max(1, concurrency)` leaves the clamped value
unchanged, so the pool bound is the clamped value. -/
theorem concurrency_clamp :
    ∀ c : Int,
      1 ≤ safeConcurrency c ∧ safeConcurrency c ≤ 30 ∧
      (c < 1 → safeConcurrency c = 1) ∧
      (30 < c → safeConcurrency c = 30) ∧
      batchLimit (safeConcurrency c) = safeConcurrency c := by
  intro c
  simp only [safeConcurrency, batchLimit, MAX_WALLETS]
  by_cases hc : c = 0 <;> simp only [hc, if_pos, if_neg, if_true, if_false] <;>
    rw [min_def, max_def] <;> split_ifs <;>
    refine ⟨by omega, by omega, by omega, by omega, ?_⟩ <;>
    rw [max_def] <;> split_ifs <;> omega

/-- Witness for C6: a concurrency of 100 is lowered to 30, which the
dispatcher keeps unchanged. -/
theorem concurrency_clamp_witness :
    (1 ≤ safeConcurrency 100 ∧ safeConcurrency 100 ≤ 30 ∧
      ((100 : Int) < 1 → safeConcurrency 100 = 1) ∧
      ((30 : Int) < 100 → safeConcurrency 100 = 30) ∧
      batchLimit (safeConcurrency 100) = safeConcurrency 100) ∧
    safeConcurrency 100 = 30 :=
  ⟨concurrency_clamp 100, (concurrency_clamp 100).2.2.2.1 (by decide)⟩

/-! ## Lemmas about the batch dispatcher -/

/-- Whenever the retry loop's refresh oracle never throws, the loop itself
never rejects: it always settles with some outcome. -/
theorem sendLoop_refresh_ok (send : Nat → SendResponse)
    (refresh : Nat → Except String BlockhashInfo) (walletName : String) (signer : Keypair)
    (href : ∀ n, ∃ bh, refresh n = Except.ok bh) :
    ∀ (remaining attempt nRefresh : Nat) (tx : Transaction),
      ∃ r, (sendLoop send refresh walletName signer remaining attempt nRefresh tx).1 =
        Except.ok r := by
  intro remaining
  induction remaining with
  | zero =>
    intro attempt nRefresh tx
    simp only [sendLoop]
    rcases hs : send attempt with sig | msg <;> dsimp only
    · exact ⟨_, rfl⟩
    · by_cases hn : needsHashMsg msg
      · rw [if_pos hn]
        rcases href nRefresh with ⟨bh, hbh⟩
        rw [hbh]
        exact ⟨_, rfl⟩
      · rw [if_neg hn]
        exact ⟨_, rfl⟩
  | succ k ih =>
    intro attempt nRefresh tx
    simp only [sendLoop]
    rcases hs : send attempt with sig | msg <;> dsimp only
    · exact ⟨_, rfl⟩
    · by_cases hn : needsHashMsg msg
      · rw [if_pos hn]
        rcases href nRefresh with ⟨bh, hbh⟩
        rw [hbh]
        dsimp only
        exact ih (attempt + 1) (nRefresh + 1) _
      · rw [if_neg hn]
        dsimp only
        exact ih (attempt + 1) nRefresh tx

/-- A signer task never rejects when its refresh oracle never throws. -/
theorem runWallet_refresh_ok (plan : TransferPlan) (bh0 : BlockhashInfo)
    (send : Nat → SendResponse) (refresh : Nat → Except String BlockhashInfo)
    (w : WalletRef) (href : ∀ n, ∃ bh, refresh n = Except.ok bh) :
    ∃ r, runWallet plan bh0 send refresh w = Except.ok r := by
  rcases sendLoop_refresh_ok send refresh w.name w.keypair href 2 1 0
      (buildTransferTx w.keypair plan bh0) with ⟨r, hr⟩
  exact ⟨r, hr⟩

/-- A successfully settled signer task carries that signer's name. -/
theorem runWallet_ok_name (plan : TransferPlan) (bh0 : BlockhashInfo)
    (send : Nat → SendResponse) (refresh : Nat → Except String BlockhashInfo)
    (w : WalletRef) (r : WalletSendResult)
    (h : runWallet plan bh0 send refresh w = Except.ok r) : r.wallet = w.name := by
  have h' : (sendLoop send refresh w.name w.keypair 2 1 0
      (buildTransferTx w.keypair plan bh0)).1 = Except.ok r := h
  exact (sendLoop_ok send refresh w.name w.keypair 2 1 0 _ r h').1

/-- `Promise.all` resolves exactly when every task resolves, with the values
aligned pairwise in order. -/
theorem promiseAll_ok_forall2 {α : Type} :
    ∀ (xs : List (Except String α)) (rs : List α),
      promiseAll xs = Except.ok rs →
      List.Forall₂ (fun x r => x = Except.ok r) xs rs := by
  intro xs
  induction xs with
  | nil =>
    intro rs h
    simp only [promiseAll, Except.ok.injEq] at h
    subst h
    exact List.Forall₂.nil
  | cons x xs ih =>
    intro rs h
    rcases x with e | a
    · simp [promiseAll] at h
    · simp only [promiseAll] at h
      rcases hp : promiseAll xs with e' | rs' <;> rw [hp] at h <;> dsimp only at h
      · simp at h
      · simp only [Except.ok.injEq] at h
        subst h
        exact List.Forall₂.cons rfl (ih rs' hp)

/-- If every task resolves, `Promise.all` resolves. -/
theorem promiseAll_of_all_ok {α : Type} :
    ∀ (xs : List (Except String α)),
      (∀ x ∈ xs, ∃ a, x = Except.ok a) → ∃ rs, promiseAll xs = Except.ok rs := by
  intro xs
  induction xs with
  | nil =>
    intro _
    exact ⟨[], rfl⟩
  | cons x xs ih =>
    intro hall
    rcases hall x (List.mem_cons_self x xs) with ⟨a, ha⟩
    subst ha
    rcases ih (fun y hy => hall y (List.mem_cons_of_mem _ hy)) with ⟨rs, hrs⟩
    refine ⟨a :: rs, ?_⟩
    simp only [promiseAll, hrs]

/-- Pairwise-settled tasks yield outcomes named after their wallets, in order. -/
theorem forall2_runWallet_names (plan : TransferPlan) (bh0 : BlockhashInfo)
    (oracle : BatchOracle) :
    ∀ (wallets : List WalletRef) (rs : List WalletSendResult),
      List.Forall₂ (fun w r =>
        runWallet plan bh0 (oracle.send w.name) (oracle.refresh w.name) w = Except.ok r)
        wallets rs →
      rs.map WalletSendResult.wallet = wallets.map WalletRef.name := by
  intro wallets rs hf
  induction hf with
  | nil => rfl
  | cons hpair _ ih =>
    simp only [List.map_cons, List.cons.injEq]
    exact ⟨runWallet_ok_name _ _ _ _ _ _ hpair, ih⟩

/-- C1 counterexample: a batch with one signer whose first attempt fails with
a staleness message and whose blockhash refresh then throws.  `executeBatch`
rejects with the refresh error — it does not return one `SendOutcome` for the
one input signer, so a batch of N signers does not always yield N outcomes. -/
theorem executeBatch_refresh_failure_drops_outcomes :
    executeBatch [{ name := "w1", keypair := ⟨1⟩ }]
      { mint := 10, destination := 20, amountRaw := 5 } 8
      { initialBlockhash := Except.ok { blockhash := "H0", lastValidBlockHeight := 100 }
        send := fun _ _ => SendResponse.failed "BlockhashNotFound"
        refresh := fun _ _ => Except.error "Blockhash fetch failed: 500" } =
      Except.error "Blockhash fetch failed: 500" := rfl

/-- C1 (amended): whenever `executeBatch` completes — equivalently, when no
blockhash refresh performed during a staleness retry throws — it returns
exactly one `SendOutcome` per input signer, in input order and keyed by the
signer's name, so distinct input names give no duplicates and no omissions,
regardless of retries and even when every signer fails.  When a
staleness-retry refresh throws, the batch rejects and returns no outcome list
at all (see the counterexample). -/
theorem executeBatch_outcome_names :
    ∀ (wallets : List WalletRef) (plan : TransferPlan) (conc : Int)
      (oracle : BatchOracle) (rs : List WalletSendResult),
      executeBatch wallets plan conc oracle = Except.ok rs →
      rs.map WalletSendResult.wallet = wallets.map WalletRef.name := by
  intro wallets plan conc oracle rs h
  unfold executeBatch at h
  rcases hbh : oracle.initialBlockhash with e | bh0 <;> rw [hbh] at h <;> dsimp only at h
  · simp at h
  · exact forall2_runWallet_names plan bh0 oracle wallets rs
      (List.forall₂_map_left_iff.mp (promiseAll_ok_forall2 _ rs h))

/-- Witness for C1 (amended): a batch of two signers in which every attempt of
every signer fails still yields exactly two outcomes, named after the two
input signers in order. -/
theorem executeBatch_outcome_names_witness :
    ([{ wallet := "a", error := some "boom" }, { wallet := "b", error := some "boom" }]
        : List WalletSendResult).map WalletSendResult.wallet =
      ([{ name := "a", keypair := ⟨1⟩ }, { name := "b", keypair := ⟨2⟩ }]
        : List WalletRef).map WalletRef.name :=
  executeBatch_outcome_names
    [{ name := "a", keypair := ⟨1⟩ }, { name := "b", keypair := ⟨2⟩ }]
    { mint := 10, destination := 20, amountRaw := 5 } 8
    { initialBlockhash := Except.ok { blockhash := "H0", lastValidBlockHeight := 100 }
      send := fun _ _ => SendResponse.failed "boom"
      refresh := fun _ _ => Except.ok { blockhash := "H1", lastValidBlockHeight := 200 } }
    [{ wallet := "a", error := some "boom" }, { wallet := "b", error := some "boom" }]
    rfl

/-- C2 counterexample: a two-signer batch in which the second signer's
staleness-retry refresh throws.  The refresh error escapes that signer's run
to the dispatcher level: `executeBatch` rejects as a whole with that error
instead of capturing it in the signer's `SendOutcome`, and the first signer's
accepted outcome is lost with it. -/
theorem executeBatch_refresh_failure_rejects_batch :
    executeBatch [{ name := "ok1", keypair := ⟨1⟩ }, { name := "bad", keypair := ⟨2⟩ }]
      { mint := 10, destination := 20, amountRaw := 5 } 8
      { initialBlockhash := Except.ok { blockhash := "H0", lastValidBlockHeight := 100 }
        send := fun name _ =>
          if name = "ok1" then SendResponse.accepted "SIG1"
          else SendResponse.failed "blockhash expired"
        refresh := fun name _ =>
          if name = "bad" then Except.error "refresh exploded"
          else Except.ok { blockhash := "H1", lastValidBlockHeight := 200 } } =
      Except.error "refresh exploded" := rfl

/-- C2 (amended): per-signer failures reported by the relay as send errors are
captured in that signer's `SendOutcome` and never fail the batch: whenever the
initial fetch succeeds and no staleness-retry refresh throws, `executeBatch`
resolves with one outcome per signer, each outcome determined solely by its
own signer's run.  A refresh failure thrown during a staleness retry, however,
escapes the signer's run and rejects the whole batch (see the
counterexample). -/
theorem executeBatch_never_rejects_when_refresh_ok :
    ∀ (wallets : List WalletRef) (plan : TransferPlan) (conc : Int)
      (oracle : BatchOracle) (bh0 : BlockhashInfo),
      oracle.initialBlockhash = Except.ok bh0 →
      (∀ name n, ∃ bh, oracle.refresh name n = Except.ok bh) →
      ∃ rs, executeBatch wallets plan conc oracle = Except.ok rs ∧
        List.Forall₂ (fun w r =>
          runWallet plan bh0 (oracle.send w.name) (oracle.refresh w.name) w = Except.ok r)
          wallets rs := by
  intro wallets plan conc oracle bh0 h0 href
  have hall : ∀ x ∈ wallets.map (fun w =>
      runWallet plan bh0 (oracle.send w.name) (oracle.refresh w.name) w),
      ∃ a, x = Except.ok a := by
    intro x hx
    rcases List.mem_map.mp hx with ⟨w, -, rfl⟩
    exact runWallet_refresh_ok plan bh0 (oracle.send w.name) (oracle.refresh w.name) w
      (href w.name)
  rcases promiseAll_of_all_ok _ hall with ⟨rs, hrs⟩
  refine ⟨rs, ?_, List.forall₂_map_left_iff.mp (promiseAll_ok_forall2 _ rs hrs)⟩
  unfold executeBatch
  rw [h0]
  dsimp only
  exact hrs

/-- Witness for C2 (amended): one signer that hits a staleness error on
attempt 1 and is accepted on attempt 2, with a refresh oracle that never
throws — the batch resolves with that signer's confirmed outcome. -/
theorem executeBatch_never_rejects_when_refresh_ok_witness :
    ∃ rs, executeBatch [{ name := "w", keypair := ⟨3⟩ }]
        { mint := 10, destination := 20, amountRaw := 5 } 1
        { initialBlockhash := Except.ok { blockhash := "H0", lastValidBlockHeight := 100 }
          send := fun _ a =>
            if a = 1 then SendResponse.failed "blockhash expired"
            else SendResponse.accepted "S2"
          refresh := fun _ _ =>
            Except.ok { blockhash := "H1", lastValidBlockHeight := 200 } } = Except.ok rs ∧
      List.Forall₂ (fun (w : WalletRef) r =>
        runWallet { mint := 10, destination := 20, amountRaw := 5 }
          { blockhash := "H0", lastValidBlockHeight := 100 }
          (fun a => if a = 1 then SendResponse.failed "blockhash expired"
            else SendResponse.accepted "S2")
          (fun _ => Except.ok { blockhash := "H1", lastValidBlockHeight := 200 }) w
          = Except.ok r)
        [{ name := "w", keypair := ⟨3⟩ }] rs :=
  executeBatch_never_rejects_when_refresh_ok [{ name := "w", keypair := ⟨3⟩ }]
    { mint := 10, destination := 20, amountRaw := 5 } 1
    { initialBlockhash := Except.ok { blockhash := "H0", lastValidBlockHeight := 100 }
      send := fun _ a =>
        if a = 1 then SendResponse.failed "blockhash expired"
        else SendResponse.accepted "S2"
      refresh := fun _ _ =>
        Except.ok { blockhash := "H1", lastValidBlockHeight := 200 } }
    { blockhash := "H0", lastValidBlockHeight := 100 } rfl
    (fun _ _ => ⟨{ blockhash := "H1", lastValidBlockHeight := 200 }, rfl⟩)

/-! ## Staleness rebinding and backoff -/

/-- Rebinding a hash twice is the same as binding the second hash directly:
`applyBlockhash` only replaces the two hash fields and the signature. -/
theorem applyBlockhash_applyBlockhash (tx : Transaction) (s : Keypair)
    (i j : BlockhashInfo) :
    applyBlockhash (applyBlockhash tx s i) s j = applyBlockhash tx s j := rfl

/-- The event trace of the retry loop always starts by sending the
transaction the loop was entered with. -/
theorem sendLoop_sent_head (send : Nat → SendResponse)
    (refresh : Nat → Except String BlockhashInfo) (walletName : String) (signer : Keypair)
    (remaining attempt nRefresh : Nat) (tx : Transaction) :
    ∃ tail, (sendLoop send refresh walletName signer remaining attempt nRefresh tx).2 =
      SendEvent.sent tx :: tail := by
  cases remaining <;> simp only [sendLoop] <;>
    rcases hs : send attempt with sig | msg <;> dsimp only
  · exact ⟨_, rfl⟩
  · by_cases hn : needsHashMsg msg
    · rw [if_pos hn]
      rcases refresh nRefresh with e | fresh <;> dsimp only <;> exact ⟨_, rfl⟩
    · rw [if_neg hn]
      exact ⟨_, rfl⟩
  · exact ⟨_, rfl⟩
  · by_cases hn : needsHashMsg msg
    · rw [if_pos hn]
      rcases refresh nRefresh with e | fresh <;> dsimp only <;> exact ⟨_, rfl⟩
    · rw [if_neg hn]
      exact ⟨_, rfl⟩

/-- C7: when a submission attempt fails with a staleness error, the run
obtains a fresh `ReferenceHashInfo` and re-signs: the transaction it submits
on the next attempt equals the Transaction Builder's output for the same
signer and plan bound to the fresh hash.  Rebinding via `applyBlockhash`
replaces exactly the hash fields and the signature, and — the builder being
deterministic — coincides with a full re-derivation; in a pure model the
source's in-place mutation of the transaction object is observationally this
value. -/
theorem staleness_retry_rebuilds :
    ∀ (signer : Keypair) (plan : TransferPlan) (bh fresh : BlockhashInfo),
      applyBlockhash (buildTransferTx signer plan bh) signer fresh =
        buildTransferTx signer plan fresh ∧
      ∀ (send : Nat → SendResponse) (refresh : Nat → Except String BlockhashInfo)
        (name msg : String) (maxR : Nat),
        send 1 = SendResponse.failed msg → needsHashMsg msg = true →
        refresh 0 = Except.ok fresh → 2 ≤ maxR →
        ∃ tail,
          (sendWithRetryTraced send refresh (buildTransferTx signer plan bh)
              name signer maxR).2 =
            SendEvent.sent (buildTransferTx signer plan bh) ::
              SendEvent.refreshed (Except.ok fresh) ::
                SendEvent.waited 150 ::
                  SendEvent.sent (buildTransferTx signer plan fresh) :: tail := by
  intro signer plan bh fresh
  have hrebind : applyBlockhash (buildTransferTx signer plan bh) signer fresh =
      buildTransferTx signer plan fresh :=
    applyBlockhash_applyBlockhash _ signer bh fresh
  refine ⟨hrebind, ?_⟩
  intro send refresh name msg maxR hs hstale hr hge
  rcases Nat.exists_eq_add_of_le' hge with ⟨k, hk⟩
  subst hk
  rcases sendLoop_sent_head send refresh name signer k 2 1
      (applyBlockhash (buildTransferTx signer plan bh) signer fresh) with ⟨tail, htail⟩
  refine ⟨tail, ?_⟩
  show (sendLoop send refresh name signer (k + 1) 1 0 (buildTransferTx signer plan bh)).2 = _
  simp only [sendLoop, hs]
  rw [if_pos hstale, hr]
  dsimp only
  rw [htail, hrebind]

/-- Witness for C7: a concrete run whose first attempt hits a staleness error
and whose second attempt submits the rebuilt transaction bound to the fresh
hash. -/
theorem staleness_retry_rebuilds_witness :
    (applyBlockhash (buildTransferTx ⟨3⟩ { mint := 10, destination := 20, amountRaw := 5 }
          { blockhash := "H0", lastValidBlockHeight := 100 }) ⟨3⟩
        { blockhash := "H1", lastValidBlockHeight := 200 } =
      buildTransferTx ⟨3⟩ { mint := 10, destination := 20, amountRaw := 5 }
        { blockhash := "H1", lastValidBlockHeight := 200 }) ∧
    ∃ tail,
      (sendWithRetryTraced
          (fun a => if a = 1 then SendResponse.failed "blockhash expired"
            else SendResponse.accepted "S2")
          (fun _ => Except.ok { blockhash := "H1", lastValidBlockHeight := 200 })
          (buildTransferTx ⟨3⟩ { mint := 10, destination := 20, amountRaw := 5 }
            { blockhash := "H0", lastValidBlockHeight := 100 }) "w" ⟨3⟩ 3).2 =
        SendEvent.sent (buildTransferTx ⟨3⟩ { mint := 10, destination := 20, amountRaw := 5 }
            { blockhash := "H0", lastValidBlockHeight := 100 }) ::
          SendEvent.refreshed (Except.ok { blockhash := "H1", lastValidBlockHeight := 200 }) ::
            SendEvent.waited 150 ::
              SendEvent.sent (buildTransferTx ⟨3⟩
                  { mint := 10, destination := 20, amountRaw := 5 }
                  { blockhash := "H1", lastValidBlockHeight := 200 }) :: tail :=
  ⟨(staleness_retry_rebuilds ⟨3⟩ { mint := 10, destination := 20, amountRaw := 5 }
      { blockhash := "H0", lastValidBlockHeight := 100 }
      { blockhash := "H1", lastValidBlockHeight := 200 }).1,
    (staleness_retry_rebuilds ⟨3⟩ { mint := 10, destination := 20, amountRaw := 5 }
      { blockhash := "H0", lastValidBlockHeight := 100 }
      { blockhash := "H1", lastValidBlockHeight := 200 }).2
      (fun a => if a = 1 then SendResponse.failed "blockhash expired"
        else SendResponse.accepted "S2")
      (fun _ => Except.ok { blockhash := "H1", lastValidBlockHeight := 200 })
      "w" "blockhash expired" 3 rfl (by decide) rfl (by decide)⟩

/-- A run whose relay responses from attempt `attempt` through
`attempt + k` are all non-staleness failures ends with the last failure
message and waits `150 * a` after each failed attempt `a` except the last. -/
theorem sendLoop_nonstale (send : Nat → SendResponse)
    (refresh : Nat → Except String BlockhashInfo)
    (walletName : String) (signer : Keypair) (msgs : Nat → String) :
    ∀ (k attempt nRefresh : Nat) (tx : Transaction),
      (∀ a, attempt ≤ a → a ≤ attempt + k → send a = SendResponse.failed (msgs a) ∧
        needsHashMsg (msgs a) = false) →
      (sendLoop send refresh walletName signer k attempt nRefresh tx).1 =
          Except.ok { wallet := walletName, error := some (msgs (attempt + k)) } ∧
        waitsOf (sendLoop send refresh walletName signer k attempt nRefresh tx).2 =
          (List.range k).map (fun i => 150 * (attempt + i)) := by
  intro k
  induction k with
  | zero =>
    intro attempt nRefresh tx hall
    rcases hall attempt (le_refl _) (Nat.le_add_right _ _) with ⟨hs, hn⟩
    simp only [sendLoop, hs]
    rw [if_neg (by simp [hn])]
    exact ⟨rfl, rfl⟩
  | succ k ih =>
    intro attempt nRefresh tx hall
    rcases hall attempt (le_refl _) (Nat.le_add_right _ _) with ⟨hs, hn⟩
    simp only [sendLoop, hs]
    rw [if_neg (by simp [hn])]
    rcases ih (attempt + 1) nRefresh tx
        (fun a h1 h2 => hall a (by omega) (by omega)) with ⟨h1, h2⟩
    constructor
    · rw [h1]
      have : attempt + 1 + k = attempt + (k + 1) := by omega
      rw [this]
    · simp only [waitsOf, h2]
      rw [List.range_succ_eq_map, List.map_cons, List.map_map]
      congr 1
      refine List.map_congr_left fun i _ => ?_
      show 150 * (attempt + 1 + i) = 150 * (attempt + (i + 1))
      omega

/-- C8: a signer run all of whose `n + 1` attempts fail with non-staleness
errors waits `150 * attemptNumber` milliseconds between consecutive attempts
— linear, not exponential, backoff with base delay 150 — and when the attempt
bound is exhausted it resolves with a Failed outcome whose error equals the
last observed failure message. -/
theorem nonstale_linear_backoff_last_error :
    ∀ (send : Nat → SendResponse) (refresh : Nat → Except String BlockhashInfo)
      (tx : Transaction) (walletName : String) (signer : Keypair)
      (msgs : Nat → String) (n : Nat),
      (∀ a, 1 ≤ a → a ≤ n + 1 → send a = SendResponse.failed (msgs a) ∧
        needsHashMsg (msgs a) = false) →
      sendWithRetry send refresh tx walletName signer (n + 1) =
          Except.ok { wallet := walletName, error := some (msgs (n + 1)) } ∧
        waitsOf (sendWithRetryTraced send refresh tx walletName signer (n + 1)).2 =
          (List.range n).map (fun i => 150 * (i + 1)) := by
  intro send refresh tx walletName signer msgs n hall
  have h := sendLoop_nonstale send refresh walletName signer msgs n 1 0 tx
    (fun a h1 h2 => hall a h1 (by omega))
  rw [Nat.add_comm 1 n] at h
  constructor
  · show (sendLoop send refresh walletName signer n 1 0 tx).1 = _
    exact h.1
  · show waitsOf (sendLoop send refresh walletName signer n 1 0 tx).2 = _
    rw [h.2]
    exact List.map_congr_left fun i _ => by omega

/-- Witness for C8: three attempts all failing with the non-staleness message
"boom" produce the Failed outcome "boom" after waiting 150 then 300
milliseconds. -/
theorem nonstale_linear_backoff_last_error_witness :
    sendWithRetry (fun _ => SendResponse.failed "boom") (fun _ => Except.error "down")
        {} "w" ⟨5⟩ 3 = Except.ok { wallet := "w", error := some "boom" } ∧
      waitsOf (sendWithRetryTraced (fun _ => SendResponse.failed "boom")
          (fun _ => Except.error "down") {} "w" ⟨5⟩ 3).2 =
        (List.range 2).map (fun i => 150 * (i + 1)) :=
 by
  have hb : needsHashMsg "boom" = false := by decide
  exact nonstale_linear_backoff_last_error (fun _ => SendResponse.failed "boom")
    (fun _ => Except.error "down") {} "w" ⟨5⟩ (fun _ => "boom") 2
    (fun _ _ _ => ⟨rfl, hb⟩)

end Evor
